import Mathlib

/-!
# Verification of the forge.ai conversation session state manager

Shallow embedding of the conversation/message lifecycle logic of the
repository: the persisted (remote API backed) provider in
`src/contexts/ConversationContext.tsx` and the two ephemeral providers
(the second half of that file and `src/unnamed/part_000`, which adds an
optional target parameter to `addMessage`).

JS strings are modelled as Lean `String`; `Date.now()` and
`Math.random()` are passed in explicitly as parameters (`now : Nat`,
`rand : String`); React `setState` pairs are modelled as an explicit
state record threaded through each operation.  A `Promise` rejection /
`throw` is modelled as an explicit error component in the result.
-/

namespace Forge

/-- `role: 'user' | 'assistant'` from the `Message` interface. -/
inductive Role where
  | user
  | assistant
deriving DecidableEq, Repr

/-- The `Message` interface of `ConversationContext.tsx` / `part_000`:
`id`, `role`, `content`, `timestamp`. -/
structure Message where
  id : String
  role : Role
  content : String
  timestamp : Nat
deriving DecidableEq, Repr

/-- The `Conversation` interface: `id`, `title`, `messages`, `createdAt`. -/
structure Conversation where
  id : String
  title : String
  messages : List Message
  createdAt : Nat
deriving DecidableEq, Repr

/-- The provider state: the `conversations` list and the
`currentConversation` pointer (both React `useState` cells). -/
structure ConvState where
  conversations : List Conversation
  currentConversation : Option Conversation
deriving DecidableEq, Repr

/-- Error taxonomy of the spec (§7): `NotFound`, `NoActiveConversation`,
`BackendUnavailable`.  Used to record what an operation reports to its
caller; an operation that swallows a failure reports `none`. -/
inductive ConvError where
  | notFound
  | noActiveConversation
  | backendUnavailable
deriving DecidableEq, Repr

/-- Decimal digit characters of `n`, most significant digit first, with a
fuel argument making the recursion structural.  Any `fuel > n` yields the
decimal rendering of `n` (see `decimalAux_fuel`). -/
def decimalAux : Nat → Nat → List Char
  | 0, _ => []
  | fuel + 1, n =>
    if n < 10 then [Nat.digitChar n]
    else decimalAux fuel (n / 10) ++ [Nat.digitChar (n % 10)]

/-- Decimal rendering of a natural number, as a JS template literal
renders `Date.now()` (base-10, most significant digit first; `0 ↦ "0"`). -/
def natDecimal (n : Nat) : String :=
  ⟨decimalAux (n + 1) n⟩

/-- The conversation id `` `conv-${Date.now()}` `` generated by the
ephemeral providers. -/
def mkConvId (now : Nat) : String :=
  "conv-" ++ natDecimal now

/-- The message id `` `msg-${Date.now()}-${Math.random()}` `` generated by
the ephemeral providers; the stringified `Math.random()` is the `rand`
parameter. -/
def mkMsgId (now : Nat) (rand : String) : String :=
  "msg-" ++ natDecimal now ++ "-" ++ rand

/-- JS `content.slice(0, 50)`: the first 50 characters of `content`. -/
def strSlice50 (content : String) : String :=
  ⟨content.data.take 50⟩

/-- The title expression shared verbatim by all three `addMessage`
implementations:
`conversationToUpdate.messages.length === 0 && role === 'user'
  ? content.slice(0, 50) + (content.length > 50 ? '...' : '')
  : conversationToUpdate.title`. -/
def deriveTitle (conv : Conversation) (role : Role) (content : String) : String :=
  if conv.messages.length = 0 ∧ role = Role.user then
    strSlice50 content ++ (if content.length > 50 then "..." else "")
  else
    conv.title

/-- The fresh conversation object
`{ id: conv-now, title: 'New Conversation', messages: [], createdAt: now }`
built by the ephemeral providers (mount effect, `createConversation`,
and the replacement branch of `deleteConversation`). -/
def freshConversation (now : Nat) : Conversation :=
  { id := mkConvId now, title := "New Conversation", messages := [], createdAt := now }

/-- The mount effect of the ephemeral providers: seed the state with one
fresh conversation and make it current. -/
def initConvState (now : Nat) : ConvState :=
  { conversations := [freshConversation now], currentConversation := some (freshConversation now) }

/-! ## Ephemeral provider operations (`src/unnamed/part_000`)

Each operation returns the provider state after the call together with
what the call reports to its caller: a thrown error is recorded as the
corresponding member of the spec's error taxonomy, a failure that the
code merely logs with `console.error` (or a silent early `return`)
reports nothing. -/

/-- `createConversation` (`part_000` lines 57–75): prune conversations with
no messages, prepend a fresh conversation, make it current, return it. -/
def createConversation (s : ConvState) (now : Nat) : ConvState × Conversation :=
  let conversationsWithMessages := s.conversations.filter fun c => c.messages.length > 0
  let newConversation := freshConversation now
  (⟨newConversation :: conversationsWithMessages, some newConversation⟩, newConversation)

/-- `addMessage` (`part_000` lines 78–116): resolve the target conversation
(the explicit `targetConversation` argument, else `currentConversation`;
`throw new Error('No conversation available')` if neither), append the new
message, derive the title, replace the conversation with the matching id in
the collection, and update `currentConversation` when
`!targetConversation || conversationToUpdate.id === currentConversation?.id`. -/
def addMessage (s : ConvState) (role : Role) (content : String)
    (targetConversation : Option Conversation) (now : Nat) (rand : String) :
    ConvState × Except ConvError Conversation :=
  match targetConversation.orElse fun _ => s.currentConversation with
  | none => (s, .error .noActiveConversation)
  | some conversationToUpdate =>
    let newMessage : Message :=
      { id := mkMsgId now rand, role := role, content := content, timestamp := now }
    let updatedConversation : Conversation :=
      { conversationToUpdate with
        messages := conversationToUpdate.messages ++ [newMessage]
        title := deriveTitle conversationToUpdate role content }
    let conversations := s.conversations.map fun c =>
      if c.id = conversationToUpdate.id then updatedConversation else c
    let updateCurrent : Bool :=
      targetConversation.isNone ||
        (match s.currentConversation with
         | some cc => conversationToUpdate.id == cc.id
         | none => false)
    let currentConversation :=
      if updateCurrent then some updatedConversation else s.currentConversation
  (⟨conversations, currentConversation⟩, .ok updatedConversation)

/-- `switchConversation` (`part_000` lines 119–124, identical in both halves
of `ConversationContext.tsx`): make the conversation with the given id
current if it is found; otherwise do nothing.  The function returns `void`
and throws nothing, so it never reports an error. -/
def switchConversation (s : ConvState) (conversationId : String) :
    ConvState × Option ConvError :=
  match s.conversations.find? fun c => c.id = conversationId with
  | some conversation => (⟨s.conversations, some conversation⟩, none)
  | none => (s, none)

/-- `deleteConversation` (`part_000` lines 127–150): filter the conversation
out; if it was current, make the first remaining conversation with messages
current, or — when none has messages — replace the whole collection with a
single fresh conversation and make it current. -/
def deleteConversation (s : ConvState) (conversationId : String) (now : Nat) :
    ConvState :=
  let updatedConversations := s.conversations.filter fun c => c.id ≠ conversationId
  match s.currentConversation with
  | some cc =>
    if cc.id = conversationId then
      let conversationsWithMessages :=
        updatedConversations.filter fun c => c.messages.length > 0
      match conversationsWithMessages with
      | c :: _ => ⟨updatedConversations, some c⟩
      | [] => ⟨[freshConversation now], some (freshConversation now)⟩
    else ⟨updatedConversations, some cc⟩
  | none => ⟨updatedConversations, none⟩

/-! ## Persisted (remote) provider operations
(`src/contexts/ConversationContext.tsx` lines 77–146)

The outcome of each `conversationAPI` call is passed in as an explicit
`Except` parameter (`.error` = the promise rejected). -/

/-- Remote `createNewConversation` (lines 77–85): on API success the
returned conversation is prepended (no pruning) and made current; on API
failure the error is caught and only logged, so nothing is reported to the
caller and the state is left unchanged. -/
def createNewConversationRemote (s : ConvState)
    (apiCreate : Except Unit Conversation) : ConvState × Option ConvError :=
  match apiCreate with
  | .ok newConversation =>
    (⟨newConversation :: s.conversations, some newConversation⟩, none)
  | .error _ => (s, none)

/-- Remote `addMessage` (lines 87–111): `if (!currentConversation) return;`
silently no-ops; on API failure the error is rethrown (`throw error`, an
I/O failure, i.e. `BackendUnavailable` in the spec's taxonomy) with no
state mutated; on success the returned message is appended, the title
derived, and the conversation with the matching id replaced. -/
def addMessageRemote (s : ConvState) (role : Role) (content : String)
    (apiAdd : Except Unit Message) : ConvState × Option ConvError :=
  match s.currentConversation with
  | none => (s, none)
  | some currentConversation =>
    match apiAdd with
    | .error _ => (s, some .backendUnavailable)
    | .ok newMessage =>
      let updatedConversation : Conversation :=
        { currentConversation with
          messages := currentConversation.messages ++ [newMessage]
          title := deriveTitle currentConversation role content }
      (⟨s.conversations.map fun c =>
          if c.id = updatedConversation.id then updatedConversation else c,
        some updatedConversation⟩, none)

/-- Remote `deleteConversation` (lines 120–135): on API success the
conversation is filtered out; if it was current, the first remaining
conversation (regardless of messages) becomes current, or — when none
remains — `createNewConversation` runs (whose own failure is swallowed).
An API delete failure is caught and only logged. -/
def deleteConversationRemote (s : ConvState) (conversationId : String)
    (apiDelete : Except Unit Unit) (apiCreate : Except Unit Conversation) :
    ConvState × Option ConvError :=
  match apiDelete with
  | .error _ => (s, none)
  | .ok _ =>
    let remaining := s.conversations.filter fun c => c.id ≠ conversationId
    match s.currentConversation with
    | some cc =>
      if cc.id = conversationId then
        match remaining with
        | c :: _ => (⟨remaining, some c⟩, none)
        | [] =>
          match apiCreate with
          | .ok newConversation => (⟨[newConversation], some newConversation⟩, none)
          | .error _ => (⟨remaining, some cc⟩, none)
      else (⟨remaining, some cc⟩, none)
    | none => (⟨remaining, none⟩, none)

/-! ## Operation traces (ephemeral mode)

A trace element records the user-visible operation together with the
clock value(s) the provider observes while executing it. -/

/-- One ephemeral-mode operation with the `Date.now()` / `Math.random()`
values it observes. -/
inductive Op where
  | create (now : Nat)
  | switch (conversationId : String)
  | add (role : Role) (content : String) (target : Option Conversation)
      (now : Nat) (rand : String)
  | delete (conversationId : String) (now : Nat)
deriving DecidableEq, Repr

/-- Run one ephemeral operation on the state. -/
def step (s : ConvState) : Op → ConvState
  | .create now => (createConversation s now).1
  | .switch conversationId => (switchConversation s conversationId).1
  | .add role content target now rand => (addMessage s role content target now rand).1
  | .delete conversationId now => deleteConversation s conversationId now

/-- Run a sequence of ephemeral operations. -/
def run (s : ConvState) (ops : List Op) : ConvState :=
  ops.foldl step s

/-- The clock value at which an operation may create a conversation id
(`create` always, `delete` in its replacement branch); `switch` and `add`
never mint a conversation id. -/
def opTime : Op → Option Nat
  | .create now => some now
  | .delete _ now => some now
  | .add _ _ _ _ _ => none
  | .switch _ => none

/-- `freshFrom t ops`: along the trace, every clock value at which a
conversation id may be minted is strictly larger than every earlier one
(and than `t`). -/
def freshFrom (t : Nat) : List Op → Bool
  | [] => true
  | op :: ops =>
    match opTime op with
    | none => freshFrom t ops
    | some n => decide (t < n) && freshFrom n ops

/-- The ids of the conversations in the collection, in collection order. -/
def ConvIds (s : ConvState) : List String :=
  s.conversations.map fun c => c.id


/-- The `updatedConversation` object built inside `addMessage`. -/
def appendedConversation (conv : Conversation) (role : Role) (content : String)
    (now : Nat) (rand : String) : Conversation :=
  { conv with
    messages := conv.messages ++
      [{ id := mkMsgId now rand, role := role, content := content, timestamp := now }]
    title := deriveTitle conv role content }

/-- Id bookkeeping invariant at clock bound `t`: the collection's ids are
pairwise distinct and every id was minted at some clock value `≤ t`. -/
def IdInv (t : Nat) (s : ConvState) : Prop :=
  (ConvIds s).Nodup ∧ ∀ c ∈ s.conversations, ∃ k ≤ t, c.id = mkConvId k

/-- A concrete sample message, used as input in concrete instances below. -/
def msgHi : Message :=
  { id := "m-hi", role := Role.user, content := "hi", timestamp := 1 }

/-- A concrete conversation `conv-0` holding one message. -/
def convA : Conversation :=
  { id := "conv-0", title := "hi", messages := [msgHi], createdAt := 0 }

/-- A concrete empty conversation `conv-1`. -/
def convB : Conversation := freshConversation 1

/-- A concrete empty conversation `conv-2` (used as the current one). -/
def convC : Conversation := freshConversation 2

/-- A concrete provider state: `conv-2` (current, empty), `conv-1` (empty),
`conv-0` (one message), newest first. -/
def stateCBA : ConvState :=
  { conversations := [convC, convB, convA], currentConversation := some convC }

/-- A concrete provider state holding only `convA`. -/
def stateA : ConvState :=
  { conversations := [convA], currentConversation := some convA }

/-- The empty provider state (no conversations, no current one). -/
def stateEmpty : ConvState :=
  { conversations := [], currentConversation := none }

/-! ## Injectivity of the ephemeral conversation-id generator -/

theorem decimalAux_ne_nil {fuel n : Nat} (h : n < fuel) : decimalAux fuel n ≠ [] := by
  cases fuel with
  | zero => omega
  | succ f =>
    by_cases hn : n < 10 <;> simp [decimalAux, hn]

theorem decimalAux_fuel {n : Nat} : ∀ {fuel1 fuel2 : Nat}, n < fuel1 → n < fuel2 →
    decimalAux fuel1 n = decimalAux fuel2 n := by
  induction n using Nat.strong_induction_on with
  | _ n ih =>
    intro fuel1 fuel2 h1 h2
    match fuel1, fuel2 with
    | f1 + 1, f2 + 1 =>
      by_cases hn : n < 10
      · simp [decimalAux, hn]
      · have hd : n / 10 < n := Nat.div_lt_self (by omega) (by omega)
        simp only [decimalAux, if_neg hn]
        rw [ih (n / 10) hd (show n / 10 < f1 by omega) (show n / 10 < f2 by omega)]

theorem digitChar_inj_lt : ∀ a < 10, ∀ b < 10, Nat.digitChar a = Nat.digitChar b → a = b := by
  decide

theorem decimalAux_inj : ∀ m : Nat, ∀ {n fuel1 fuel2 : Nat}, m < fuel1 → n < fuel2 →
    decimalAux fuel1 m = decimalAux fuel2 n → m = n := by
  intro m
  induction m using Nat.strong_induction_on with
  | _ m ih =>
    intro n fuel1 fuel2 h1 h2 heq
    match fuel1, fuel2 with
    | f1 + 1, f2 + 1 =>
      by_cases hm : m < 10 <;> by_cases hn : n < 10
      · simp only [decimalAux, if_pos hm, if_pos hn] at heq
        exact digitChar_inj_lt m hm n hn (List.cons.inj heq).1
      · exfalso
        simp only [decimalAux, if_pos hm, if_neg hn] at heq
        have hne : decimalAux f2 (n / 10) ≠ [] :=
          decimalAux_ne_nil
            (by have := Nat.div_lt_self (show 0 < n by omega) (show 1 < 10 by omega); omega)
        have heq' : ([] : List Char) ++ [Nat.digitChar m]
            = decimalAux f2 (n / 10) ++ [Nat.digitChar (n % 10)] := by simpa using heq
        obtain ⟨hpre, -⟩ := List.append_inj' heq' rfl
        exact hne hpre.symm
      · exfalso
        simp only [decimalAux, if_neg hm, if_pos hn] at heq
        have hne : decimalAux f1 (m / 10) ≠ [] :=
          decimalAux_ne_nil
            (by have := Nat.div_lt_self (show 0 < m by omega) (show 1 < 10 by omega); omega)
        have heq' : decimalAux f1 (m / 10) ++ [Nat.digitChar (m % 10)]
            = ([] : List Char) ++ [Nat.digitChar n] := by simpa using heq
        obtain ⟨hpre, -⟩ := List.append_inj' heq' rfl
        exact hne hpre
      · simp only [decimalAux, if_neg hm, if_neg hn] at heq
        have hdm : m / 10 < m := Nat.div_lt_self (by omega) (by omega)
        have hdn : n / 10 < n := Nat.div_lt_self (by omega) (by omega)
        obtain ⟨hpre, hlast⟩ := List.append_inj' heq rfl
        have hq : m / 10 = n / 10 :=
          ih (m / 10) hdm (show m / 10 < f1 by omega) (show n / 10 < f2 by omega) hpre
        have hr : m % 10 = n % 10 :=
          digitChar_inj_lt _ (Nat.mod_lt _ (by omega)) _ (Nat.mod_lt _ (by omega))
            (List.cons.inj hlast).1
        omega

theorem natDecimal_inj {m n : Nat} (h : natDecimal m = natDecimal n) : m = n :=
  decimalAux_inj m (Nat.lt_succ_self m) (Nat.lt_succ_self n) (congrArg String.data h)

theorem mkConvId_inj {m n : Nat} (h : mkConvId m = mkConvId n) : m = n := by
  apply natDecimal_inj
  apply String.ext
  have hd : "conv-".data ++ (natDecimal m).data = "conv-".data ++ (natDecimal n).data :=
    congrArg String.data h
  exact List.append_cancel_left hd


/-! ## Helper lemmas about the embedded operations -/

theorem strSlice50_of_le {content : String} (h : content.length ≤ 50) :
    strSlice50 content = content := by
  apply String.ext
  exact List.take_of_length_le h

theorem deriveTitle_first_user {conv : Conversation} (hconv : conv.messages = [])
    (content : String) :
    deriveTitle conv Role.user content =
      if content.length ≤ 50 then content else strSlice50 content ++ "..." := by
  unfold deriveTitle
  rw [if_pos ⟨by simp [hconv], rfl⟩]
  by_cases hlen : content.length ≤ 50
  · rw [if_pos hlen, if_neg (by omega), String.append_empty, strSlice50_of_le hlen]
  · rw [if_neg hlen, if_pos (by omega)]

theorem deriveTitle_frozen {conv : Conversation} {role : Role} (content : String)
    (h : conv.messages ≠ [] ∨ role = Role.assistant) :
    deriveTitle conv role content = conv.title := by
  unfold deriveTitle
  rw [if_neg]
  rintro ⟨h1, h2⟩
  rcases h with h | h
  · exact h (List.length_eq_zero.mp h1)
  · rw [h] at h2
    exact Role.noConfusion h2

theorem addMessage_eq {s : ConvState} {role : Role} {content : String}
    {target : Option Conversation} {conv : Conversation} (now : Nat) (rand : String)
    (hres : target.orElse (fun _ => s.currentConversation) = some conv) :
    addMessage s role content target now rand =
      (⟨s.conversations.map fun c =>
          if c.id = conv.id then appendedConversation conv role content now rand else c,
        if (target.isNone ||
            (match s.currentConversation with
             | some cc => conv.id == cc.id
             | none => false) : Bool)
        then some (appendedConversation conv role content now rand)
        else s.currentConversation⟩,
       Except.ok (appendedConversation conv role content now rand)) := by
  unfold addMessage
  rw [hres]
  rfl

theorem forall₂_eq_map {α β : Type} (f : α → β) (l : List α) :
    List.Forall₂ (fun a b => b = f a) l (l.map f) := by
  induction l with
  | nil => simp
  | cons a t ih => simp [ih]


/-! ## Claim C1: title derivation on the first user message -/

/-- **C1.** On a conversation with zero messages, an `addMessage` with role
`user` that completes sets the title to `content` itself when `content` has
at most 50 characters (no ellipsis appended), and to the first 50
characters of `content` followed by the ellipsis marker `"..."` when
longer.  This holds for the ephemeral `addMessage` (`part_000`) and for the
remote `addMessage` on a successful append; the derivation is the pure
function `deriveTitle` of the conversation before the append, the role and
the content. -/
theorem addMessage_first_user_title
    (s : ConvState) (conv : Conversation) (content : String)
    (target : Option Conversation) (now : Nat) (rand : String)
    (sR : ConvState) (cR : Conversation) (m : Message)
    (hres : target.orElse (fun _ => s.currentConversation) = some conv)
    (hconv : conv.messages = [])
    (hR : sR.currentConversation = some cR) (hcR : cR.messages = []) :
    ((addMessage s Role.user content target now rand).2.map Conversation.title
        = Except.ok (if content.length ≤ 50 then content
                     else strSlice50 content ++ "...")) ∧
    ((addMessageRemote sR Role.user content (Except.ok m)).1.currentConversation.map
          Conversation.title
        = some (if content.length ≤ 50 then content
                else strSlice50 content ++ "...")) := by
  constructor
  · rw [addMessage_eq now rand hres]
    simp [appendedConversation, deriveTitle_first_user hconv, Except.map]
  · unfold addMessageRemote
    rw [hR]
    simp [deriveTitle_first_user hcR]

/-- Witness for `addMessage_first_user_title`: the 48-character problem
statement of the spec's example is kept verbatim as the title, in both
modes. -/
theorem addMessage_first_user_title_witness :
    (freshConversation 0).messages = [] ∧
    ((addMessage (initConvState 0) Role.user
        "Analyze the problem of food waste in restaurants" none 1 "r").2.map
          Conversation.title
      = Except.ok "Analyze the problem of food waste in restaurants") ∧
    ((addMessageRemote (initConvState 0) Role.user
        "Analyze the problem of food waste in restaurants"
        (Except.ok msgHi)).1.currentConversation.map Conversation.title
      = some "Analyze the problem of food waste in restaurants") := by
  have h := addMessage_first_user_title (initConvState 0) (freshConversation 0)
    "Analyze the problem of food waste in restaurants" none 1 "r"
    (initConvState 0) (freshConversation 0) msgHi rfl rfl rfl rfl
  have h1 := h.1
  have h2 := h.2
  rw [if_pos (by decide)] at h1 h2
  exact ⟨rfl, h1, h2⟩

/-! ## Claim C4: atomicity of a failed remote append -/

/-- **C4.** In remote mode, an `addMessage` whose backing append fails
leaves the state (in particular the targeted conversation's `messages`)
exactly as it was, and the failure is rethrown to the caller (an I/O
failure, `BackendUnavailable` in the spec's taxonomy); in ephemeral mode,
`addMessage` with a resolvable target never fails. -/
theorem addMessage_failure_atomic
    (sR : ConvState) (cR : Conversation) (roleR : Role) (contentR : String)
    (s : ConvState) (role : Role) (content : String) (target : Option Conversation)
    (conv : Conversation) (now : Nat) (rand : String)
    (hR : sR.currentConversation = some cR)
    (hres : target.orElse (fun _ => s.currentConversation) = some conv) :
    (addMessageRemote sR roleR contentR (Except.error ())
        = (sR, some ConvError.backendUnavailable)) ∧
    ((addMessageRemote sR roleR contentR (Except.error ())).1.conversations
        = sR.conversations) ∧
    ∃ u, (addMessage s role content target now rand).2 = Except.ok u := by
  have h1 : addMessageRemote sR roleR contentR (Except.error ())
      = (sR, some ConvError.backendUnavailable) := by
    unfold addMessageRemote
    rw [hR]
  refine ⟨h1, by rw [h1], ⟨_, by rw [addMessage_eq now rand hres]⟩⟩

/-- Witness for `addMessage_failure_atomic`. -/
theorem addMessage_failure_atomic_witness :
    (addMessageRemote (initConvState 0) Role.user "hi" (Except.error ())
        = (initConvState 0, some ConvError.backendUnavailable)) ∧
    ∃ u, (addMessage (initConvState 0) Role.user "hi" none 1 "r").2 = Except.ok u := by
  have h := addMessage_failure_atomic (initConvState 0) (freshConversation 0)
    Role.user "hi" (initConvState 0) Role.user "hi" none (freshConversation 0)
    1 "r" rfl rfl
  exact ⟨h.1, h.2.2⟩

/-! ## Claim C5: the title is set only by a first *user* message and is
frozen afterwards -/

/-- **C5 counterexample.**  When an assistant-authored message precedes the
first user message, the title does *not* become the truncation of the first
user-authored message: after `addMessage('assistant', "hello")` followed by
`addMessage('user', "hi")` on a fresh conversation, the title is still the
placeholder `"New Conversation"`, not `"hi"`. -/
theorem title_after_assistant_first_counterexample :
    ((run (initConvState 0)
        [Op.add Role.assistant "hello" none 1 "r1",
         Op.add Role.user "hi" none 2 "r2"]).currentConversation.map Conversation.title
      = some "New Conversation") ∧
    ((run (initConvState 0)
        [Op.add Role.assistant "hello" none 1 "r1",
         Op.add Role.user "hi" none 2 "r2"]).currentConversation.map Conversation.title
      ≠ some "hi") := by
  decide

/-- **C5 (amended).**  The title is set only by an append whose role is
`user` *and* which lands on a conversation with zero messages.  Hence
(i) once any message exists, no later `addMessage` of either role changes
the title, and (ii) an assistant-authored append on an empty conversation
leaves the placeholder title unchanged — so when an assistant message
precedes the first user message the title never reflects that user
message.  Both the ephemeral and the remote `addMessage` behave this way. -/
theorem title_frozen
    (s : ConvState) (role : Role) (content : String) (target : Option Conversation)
    (conv : Conversation) (now : Nat) (rand : String)
    (sR : ConvState) (cR : Conversation) (roleR : Role) (contentR : String) (m : Message)
    (hres : target.orElse (fun _ => s.currentConversation) = some conv)
    (hfrozen : conv.messages ≠ [] ∨ role = Role.assistant)
    (hR : sR.currentConversation = some cR)
    (hfrozenR : cR.messages ≠ [] ∨ roleR = Role.assistant) :
    ((addMessage s role content target now rand).2.map Conversation.title
        = Except.ok conv.title) ∧
    ((addMessageRemote sR roleR contentR (Except.ok m)).1.currentConversation.map
        Conversation.title = some cR.title) := by
  constructor
  · rw [addMessage_eq now rand hres]
    simp [appendedConversation, deriveTitle_frozen content hfrozen, Except.map]
  · unfold addMessageRemote
    rw [hR]
    simp [deriveTitle_frozen contentR hfrozenR]

/-- Witness for `title_frozen`: a second `addMessage` after the first user
message does not change the title. -/
theorem title_frozen_witness :
    convA.messages ≠ [] ∧
    ((addMessage stateA Role.assistant "sure" none 3 "r").2.map Conversation.title
      = Except.ok convA.title) := by
  have h := title_frozen stateA Role.assistant "sure" none convA 3 "r"
    stateA convA Role.assistant "sure" msgHi rfl (Or.inl (by decide)) rfl
    (Or.inl (by decide))
  exact ⟨by decide, h.1⟩

/-! ## Claim C7: addMessage with no resolvable target -/

/-- **C7 counterexample.**  The remote `addMessage`
(`ConversationContext.tsx` line 88) does *not* report a
`NoActiveConversation` failure when no current conversation exists: it
silently returns (`if (!currentConversation) return;`), reporting
nothing. -/
theorem addMessage_no_target_counterexample :
    (addMessageRemote stateEmpty Role.user "hi" (Except.ok msgHi)
      = (stateEmpty, none)) ∧
    ((addMessageRemote stateEmpty Role.user "hi" (Except.ok msgHi)).2
      ≠ some ConvError.noActiveConversation) := by
  decide

/-- **C7 (amended).**  When no target conversation can be resolved, the
`part_000` `addMessage` throws (`'No conversation available'`, the
`NoActiveConversation` of the taxonomy) and leaves the collection
unchanged, failing the pending action; the remote `addMessage` instead
returns silently, reporting nothing, also leaving the collection
unchanged. -/
theorem addMessage_no_target
    (s sR : ConvState) (role roleR : Role) (content contentR : String)
    (now : Nat) (rand : String) (api : Except Unit Message)
    (h : s.currentConversation = none) (hR : sR.currentConversation = none) :
    (addMessage s role content none now rand
        = (s, Except.error ConvError.noActiveConversation)) ∧
    (addMessageRemote sR roleR contentR api = (sR, none)) := by
  constructor
  · unfold addMessage
    have : (Option.orElse none fun _ => s.currentConversation) = none := by
      simp [h, Option.orElse]
    rw [this]
  · unfold addMessageRemote
    rw [hR]

/-- Witness for `addMessage_no_target`. -/
theorem addMessage_no_target_witness :
    (addMessage stateEmpty Role.user "hi" none 1 "r"
      = (stateEmpty, Except.error ConvError.noActiveConversation)) ∧
    (addMessageRemote stateEmpty Role.user "hi" (Except.ok msgHi)
      = (stateEmpty, none)) :=
  addMessage_no_target stateEmpty stateEmpty
    Role.user Role.user "hi" "hi" 1 "r" (Except.ok msgHi) rfl rfl

/-! ## Claim C10: frame property of a successful addMessage -/

/-- **C10.**  A successful `addMessage` changes only the conversation(s)
whose id equals the target's id: the collection keeps its length and
order, every conversation with a different id is left completely
unchanged, and the target is replaced by the returned conversation `u`,
which keeps the target's `id` and `createdAt`, has exactly one message
appended at the end, and carries the (possibly re-derived) title
`deriveTitle`.  Stated for the ephemeral `addMessage` and for the remote
`addMessage` on a successful append. -/
theorem addMessage_frame
    (s : ConvState) (role : Role) (content : String) (target : Option Conversation)
    (conv : Conversation) (now : Nat) (rand : String)
    (sR : ConvState) (cR : Conversation) (roleR : Role) (contentR : String) (m : Message)
    (hres : target.orElse (fun _ => s.currentConversation) = some conv)
    (hR : sR.currentConversation = some cR) :
    (∃ u msg,
      (addMessage s role content target now rand).2 = Except.ok u ∧
      u.id = conv.id ∧ u.createdAt = conv.createdAt ∧
      u.title = deriveTitle conv role content ∧
      u.messages = conv.messages ++ [msg] ∧
      List.Forall₂ (fun c c' => c' = if c.id = conv.id then u else c)
        s.conversations (addMessage s role content target now rand).1.conversations) ∧
    (∃ u,
      u.id = cR.id ∧ u.createdAt = cR.createdAt ∧
      u.title = deriveTitle cR roleR contentR ∧
      u.messages = cR.messages ++ [m] ∧
      List.Forall₂ (fun c c' => c' = if c.id = cR.id then u else c)
        sR.conversations
        (addMessageRemote sR roleR contentR (Except.ok m)).1.conversations) := by
  constructor
  · rw [addMessage_eq now rand hres]
    exact ⟨appendedConversation conv role content now rand, _, rfl, rfl, rfl, rfl, rfl,
      forall₂_eq_map _ _⟩
  · unfold addMessageRemote
    rw [hR]
    refine ⟨{ cR with
        messages := cR.messages ++ [m]
        title := deriveTitle cR roleR contentR }, rfl, rfl, rfl, rfl, ?_⟩
    exact forall₂_eq_map _ _

/-- Witness for `addMessage_frame`: appending to the current conversation
`conv-2` leaves `conv-1` and `conv-0` untouched and preserves order. -/
theorem addMessage_frame_witness :
    ∃ u msg,
      (addMessage stateCBA Role.user "question" none 5 "r").2 = Except.ok u ∧
      u.id = convC.id ∧ u.createdAt = convC.createdAt ∧
      u.title = deriveTitle convC Role.user "question" ∧
      u.messages = convC.messages ++ [msg] ∧
      List.Forall₂ (fun c c' => c' = if c.id = convC.id then u else c)
        stateCBA.conversations
        (addMessage stateCBA Role.user "question" none 5 "r").1.conversations := by
  have h := addMessage_frame stateCBA Role.user "question" none convC 5 "r"
    stateA convA Role.user "question" msgHi rfl rfl
  exact h.1


/-! ## Claim C2: pruning of empty conversations on creation -/

/-- **C2 counterexample.**  The remote `createNewConversation` does not
prune: creating a conversation while an empty non-current conversation
exists leaves that empty conversation in the collection. -/
theorem create_prunes_counterexample :
    ((freshConversation 0) ∈ (createNewConversationRemote (initConvState 0)
        (Except.ok (freshConversation 1))).1.conversations) ∧
    (freshConversation 0).messages = [] ∧
    ((createNewConversationRemote (initConvState 0)
        (Except.ok (freshConversation 1))).1.currentConversation
      ≠ some (freshConversation 0)) := by
  decide

/-- **C2 (amended).**  In the ephemeral mode, after `createConversation`
every conversation other than the new current one has at least one
message (empty ones were pruned), every conversation with messages
survives, and the new conversation is current and in the collection.  In
the persisted mode no pruning happens: the new conversation is simply
prepended and every existing conversation, empty or not, remains. -/
theorem create_prunes_empty
    (s sR : ConvState) (now : Nat) (nc : Conversation) :
    ((createConversation s now).1.currentConversation
        = some (createConversation s now).2 ∧
     (∀ c ∈ (createConversation s now).1.conversations,
        c = (createConversation s now).2 ∨ c.messages ≠ []) ∧
     (∀ c ∈ s.conversations, c.messages ≠ [] →
        c ∈ (createConversation s now).1.conversations) ∧
     (createConversation s now).2 ∈ (createConversation s now).1.conversations) ∧
    ((createNewConversationRemote sR (Except.ok nc)).1.conversations
        = nc :: sR.conversations ∧
     (createNewConversationRemote sR (Except.ok nc)).1.currentConversation = some nc) := by
  refine ⟨⟨rfl, ?_, ?_, List.mem_cons_self _ _⟩, rfl, rfl⟩
  · intro c hc
    rcases List.mem_cons.mp hc with h | h
    · exact Or.inl h
    · refine Or.inr ?_
      have := (List.mem_filter.mp h).2
      intro hnil
      simp [hnil] at this
  · intro c hc hmsg
    refine List.mem_cons.mpr (Or.inr ?_)
    refine List.mem_filter.mpr ⟨hc, ?_⟩
    simpa using List.length_pos.mpr hmsg

/-! ## Claim C6: switching to a nonexistent conversation -/

/-- **C6 counterexample.**  `switchConversation` with an id not in the
collection leaves the state unchanged but reports nothing: no `NotFound`
error is surfaced to the caller (the function returns `void` and never
throws). -/
theorem switch_absent_counterexample :
    (switchConversation (initConvState 0) "nope" = (initConvState 0, none)) ∧
    ((switchConversation (initConvState 0) "nope").2 ≠ some ConvError.notFound) := by
  decide

/-- **C6 (amended).**  `switchConversation` with an id that matches no
conversation in the collection leaves the entire state unchanged and
reports nothing (silent no-op) — in particular no `NotFound` error
reaches the caller. -/
theorem switch_absent
    (s : ConvState) (conversationId : String)
    (h : ∀ c ∈ s.conversations, c.id ≠ conversationId) :
    switchConversation s conversationId = (s, none) := by
  unfold switchConversation
  have hfind : s.conversations.find? (fun c => c.id = conversationId) = none := by
    rw [List.find?_eq_none]
    intro c hc
    simp [h c hc]
  rw [hfind]

/-- Witness for `switch_absent`. -/
theorem switch_absent_witness :
    switchConversation (initConvState 0) "conv-99" = (initConvState 0, none) :=
  switch_absent (initConvState 0) "conv-99" (by decide)

/-! ## Claim C8: createConversation inserts at the front; failure handling -/

/-- **C8 counterexample.**  When the backing create call fails, the remote
`createNewConversation` leaves the state unchanged but *swallows* the
failure (`console.error` only): no `BackendUnavailable` error is reported
to the caller. -/
theorem create_failure_counterexample :
    (createNewConversationRemote (initConvState 0) (Except.error ())
        = (initConvState 0, none)) ∧
    ((createNewConversationRemote (initConvState 0) (Except.error ())).2
        ≠ some ConvError.backendUnavailable) := by
  decide

/-- **C8 (amended).**  `createConversation` puts the newly created empty
conversation at the front of the collection and makes it current (both
modes); in the persisted mode a failing backing create call leaves the
collection and the current pointer exactly as they were (no partial
insert), but the failure is only logged — nothing is reported to the
caller. -/
theorem create_front_and_failure
    (s sR sF : ConvState) (now : Nat) (nc : Conversation) :
    ((createConversation s now).1.conversations.head?
        = some (createConversation s now).2 ∧
     (createConversation s now).1.currentConversation
        = some (createConversation s now).2 ∧
     ((createConversation s now).2).messages = []) ∧
    ((createNewConversationRemote sR (Except.ok nc)).1.conversations.head? = some nc ∧
     (createNewConversationRemote sR (Except.ok nc)).1.currentConversation = some nc) ∧
    (createNewConversationRemote sF (Except.error ()) = (sF, none)) :=
  ⟨⟨rfl, rfl, rfl⟩, ⟨rfl, rfl⟩, rfl⟩


/-! ## Claim C3: replacement selection when the current conversation is
deleted -/

theorem deleteConversation_current_eq (convs : List Conversation)
    (cc : Conversation) (conversationId : String) (now : Nat)
    (hid : cc.id = conversationId) :
    deleteConversation ⟨convs, some cc⟩ conversationId now =
      match (convs.filter fun c => c.id ≠ conversationId).filter
          (fun c => c.messages.length > 0) with
      | w :: _ => ⟨convs.filter fun c => c.id ≠ conversationId, some w⟩
      | [] => ⟨[freshConversation now], some (freshConversation now)⟩ := by
  unfold deleteConversation
  dsimp only
  rw [if_pos hid]

theorem deleteConversationRemote_current_eq (convs : List Conversation)
    (cc : Conversation) (conversationId : String) (ncR : Conversation)
    (hid : cc.id = conversationId) :
    deleteConversationRemote ⟨convs, some cc⟩ conversationId
        (Except.ok ()) (Except.ok ncR) =
      match convs.filter (fun c => c.id ≠ conversationId) with
      | w :: rest => (⟨w :: rest, some w⟩, none)
      | [] => (⟨[ncR], some ncR⟩, none) := by
  unfold deleteConversationRemote
  dsimp only
  rw [if_pos hid]
  cases convs.filter fun c => c.id ≠ conversationId <;> rfl

/-- **C3 counterexample.**  In the persisted mode, deleting the current
conversation makes the *first remaining* conversation current even when it
is empty and a conversation with messages remains: deleting current
`conv-2` from `[conv-2, conv-1 (empty), conv-0 (one message)]` selects the
empty `conv-1`, not the content-bearing `conv-0`. -/
theorem delete_replacement_counterexample :
    ((deleteConversationRemote stateCBA "conv-2" (Except.ok ())
        (Except.ok (freshConversation 9))).1.currentConversation = some convB) ∧
    convB.messages = [] ∧
    (convA ∈ (deleteConversationRemote stateCBA "conv-2" (Except.ok ())
        (Except.ok (freshConversation 9))).1.conversations) ∧
    convA.messages ≠ [] := by
  decide

/-- **C3 (amended).**  Ephemeral mode behaves as claimed: deleting the
current conversation makes the first remaining conversation *with
messages* current (under the collection's most-recently-created-first
order this is the most recently created one, ties broken by collection
order), and when no remaining conversation has messages the state becomes
exactly one fresh empty current conversation.  In the persisted mode the
replacement is instead simply the first remaining conversation regardless
of its messages, and a fresh conversation is created only when no
conversation remains at all (so deleting the only conversation leaves
exactly one fresh current conversation in both modes). -/
theorem delete_current_replacement
    (s : ConvState) (cc : Conversation) (conversationId : String) (now : Nat)
    (sR : ConvState) (ccR : Conversation) (idR : String) (ncR : Conversation)
    (hcur : s.currentConversation = some cc) (hid : cc.id = conversationId)
    (hsort : s.conversations.Pairwise fun a b => b.createdAt ≤ a.createdAt)
    (hcurR : sR.currentConversation = some ccR) (hidR : ccR.id = idR) :
    ((∀ w rest,
        (s.conversations.filter fun c => c.id ≠ conversationId).filter
            (fun c => c.messages.length > 0) = w :: rest →
        (deleteConversation s conversationId now).currentConversation = some w ∧
        w.messages ≠ [] ∧
        w ∈ (deleteConversation s conversationId now).conversations ∧
        (∀ c ∈ s.conversations.filter fun c => c.id ≠ conversationId,
          c.messages ≠ [] → c.createdAt ≤ w.createdAt)) ∧
     ((s.conversations.filter fun c => c.id ≠ conversationId).filter
          (fun c => c.messages.length > 0) = [] →
        deleteConversation s conversationId now
          = ⟨[freshConversation now], some (freshConversation now)⟩)) ∧
    ((∀ w rest, sR.conversations.filter (fun c => c.id ≠ idR) = w :: rest →
        deleteConversationRemote sR idR (Except.ok ()) (Except.ok ncR)
          = (⟨w :: rest, some w⟩, none)) ∧
     (sR.conversations.filter (fun c => c.id ≠ idR) = [] →
        deleteConversationRemote sR idR (Except.ok ()) (Except.ok ncR)
          = (⟨[ncR], some ncR⟩, none))) := by
  obtain ⟨convs, cur⟩ := s
  obtain ⟨convsR, curR⟩ := sR
  simp only at hcur hcurR hsort ⊢
  subst hcur
  subst hcurR
  refine ⟨⟨?_, ?_⟩, ?_, ?_⟩
  · intro w rest hw
    rw [deleteConversation_current_eq convs cc conversationId now hid, hw]
    have hwmem : w ∈ (convs.filter fun c => c.id ≠ conversationId).filter
        (fun c => c.messages.length > 0) := by
      rw [hw]; exact List.mem_cons_self _ _
    have hwmsg : w.messages ≠ [] := by
      have := (List.mem_filter.mp hwmem).2
      intro hnil
      simp [hnil] at this
    refine ⟨rfl, hwmsg, List.mem_of_mem_filter hwmem, ?_⟩
    · intro c hc hcmsg
      have hsort2 : ((convs.filter fun c => c.id ≠ conversationId).filter
          (fun c => c.messages.length > 0)).Pairwise
            (fun a b => b.createdAt ≤ a.createdAt) :=
        (hsort.filter _).filter _
      rw [hw] at hsort2
      have hcmem : c ∈ (convs.filter fun c => c.id ≠ conversationId).filter
          (fun c => c.messages.length > 0) :=
        List.mem_filter.mpr ⟨hc, by simpa using List.length_pos.mpr hcmsg⟩
      rw [hw] at hcmem
      rcases List.mem_cons.mp hcmem with h | h
      · exact h ▸ le_refl _
      · exact (List.pairwise_cons.mp hsort2).1 c h
  · intro hempty
    rw [deleteConversation_current_eq convs cc conversationId now hid, hempty]
  · intro w rest hw
    rw [deleteConversationRemote_current_eq convsR ccR idR ncR hidR, hw]
  · intro hempty
    rw [deleteConversationRemote_current_eq convsR ccR idR ncR hidR, hempty]

/-- Witness for `delete_current_replacement`: deleting current `conv-2`
from `[conv-2 (empty), conv-1 (empty), conv-0 (one message)]` in ephemeral
mode makes the content-bearing `conv-0` current. -/
theorem delete_current_replacement_witness :
    (deleteConversation stateCBA "conv-2" 7).currentConversation = some convA ∧
    convA.messages ≠ [] := by
  have h := delete_current_replacement stateCBA convC "conv-2" 7
    stateA convA "conv-0" (freshConversation 9)
    rfl (by decide) (by decide) rfl (by decide)
  have h2 := h.1.1 convA [] (by decide)
  exact ⟨h2.1, h2.2.1⟩


/-! ## Claim C9: uniqueness of conversation ids along ephemeral traces -/

theorem IdInv.mono {t u : Nat} (htu : t ≤ u) {s : ConvState} (h : IdInv t s) :
    IdInv u s := by
  refine ⟨h.1, fun c hc => ?_⟩
  obtain ⟨k, hk, hid⟩ := h.2 c hc
  exact ⟨k, le_trans hk htu, hid⟩

theorem IdInv_switch {t : Nat} {s : ConvState} (cid : String) (h : IdInv t s) :
    IdInv t (switchConversation s cid).1 := by
  unfold switchConversation
  cases s.conversations.find? fun c => c.id = cid with
  | none => exact h
  | some c => exact ⟨h.1, h.2⟩

theorem ConvIds_addMessage (s : ConvState) (role : Role) (content : String)
    (target : Option Conversation) (now : Nat) (rand : String) :
    ConvIds (addMessage s role content target now rand).1 = ConvIds s := by
  cases hres : target.orElse fun _ => s.currentConversation with
  | none =>
    unfold addMessage
    rw [hres]
  | some conv =>
    rw [addMessage_eq now rand hres]
    unfold ConvIds
    dsimp only
    rw [List.map_map]
    refine List.map_congr_left fun c hc => ?_
    by_cases hcid : c.id = conv.id
    · simp only [Function.comp, if_pos hcid]
      exact hcid.symm
    · simp only [Function.comp, if_neg hcid]

theorem IdInv_add {t : Nat} {s : ConvState} (role : Role) (content : String)
    (target : Option Conversation) (now : Nat) (rand : String) (h : IdInv t s) :
    IdInv t (addMessage s role content target now rand).1 := by
  refine ⟨by rw [ConvIds_addMessage]; exact h.1, ?_⟩
  cases hres : target.orElse fun _ => s.currentConversation with
  | none =>
    unfold addMessage
    rw [hres]
    exact h.2
  | some conv =>
    rw [addMessage_eq now rand hres]
    intro c' hc'
    dsimp only at hc'
    obtain ⟨c, hc, rfl⟩ := List.mem_map.mp hc'
    obtain ⟨k, hk, hid⟩ := h.2 c hc
    refine ⟨k, hk, ?_⟩
    by_cases hcid : c.id = conv.id
    · rw [if_pos hcid]
      show conv.id = mkConvId k
      rw [← hcid]
      exact hid
    · rw [if_neg hcid]
      exact hid

theorem IdInv_filter {t u : Nat} {s : ConvState} (htu : t ≤ u)
    (p : Conversation → Bool) (oc : Option Conversation) (h : IdInv t s) :
    IdInv u ⟨s.conversations.filter p, oc⟩ := by
  constructor
  · exact List.Nodup.sublist (List.Sublist.map _ (List.filter_sublist _)) h.1
  · intro c hc
    obtain ⟨k, hk, hid⟩ := h.2 c (List.mem_of_mem_filter hc)
    exact ⟨k, le_trans hk htu, hid⟩

theorem IdInv_fresh (now : Nat) (oc : Option Conversation) :
    IdInv now ⟨[freshConversation now], oc⟩ := by
  refine ⟨by simp [ConvIds], fun c hc => ?_⟩
  rw [List.mem_singleton] at hc
  exact ⟨now, le_refl now, by rw [hc]; rfl⟩

theorem IdInv_create {t now : Nat} {s : ConvState} (ht : t < now) (h : IdInv t s) :
    IdInv now (createConversation s now).1 := by
  constructor
  · unfold createConversation ConvIds
    dsimp only
    rw [List.map_cons]
    refine List.nodup_cons.mpr ⟨?_, ?_⟩
    · intro hmem
      obtain ⟨c, hc, hcid⟩ := List.mem_map.mp hmem
      obtain ⟨k, hk, hid⟩ := h.2 c (List.mem_of_mem_filter hc)
      have hkn : k = now := mkConvId_inj (by rw [← hid]; exact hcid)
      omega
    · exact List.Nodup.sublist (List.Sublist.map _ (List.filter_sublist _)) h.1
  · intro c hc
    unfold createConversation at hc
    dsimp only at hc
    rcases List.mem_cons.mp hc with hfr | hfl
    · exact ⟨now, le_refl now, by rw [hfr]; rfl⟩
    · obtain ⟨k, hk, hid⟩ := h.2 c (List.mem_of_mem_filter hfl)
      exact ⟨k, by omega, hid⟩

theorem IdInv_delete {t now : Nat} {s : ConvState} (cid : String)
    (ht : t ≤ now) (h : IdInv t s) :
    IdInv now (deleteConversation s cid now) := by
  unfold deleteConversation
  dsimp only
  cases s.currentConversation with
  | none => exact IdInv_filter ht _ none h
  | some cc =>
    dsimp only
    by_cases hid : cc.id = cid
    · rw [if_pos hid]
      cases (s.conversations.filter fun c => c.id ≠ cid).filter
          (fun c => c.messages.length > 0) with
      | nil => exact IdInv_fresh now _
      | cons w rest => exact IdInv_filter ht _ (some w) h
    · rw [if_neg hid]
      exact IdInv_filter ht _ (some cc) h

theorem run_IdInv (ops : List Op) : ∀ {t : Nat} {s : ConvState}, IdInv t s →
    freshFrom t ops = true → ∃ u, IdInv u (run s ops) := by
  induction ops with
  | nil =>
    intro t s h _
    exact ⟨t, h⟩
  | cons op ops ih =>
    intro t s h hf
    show ∃ u, IdInv u (run (step s op) ops)
    cases op with
    | create now =>
      have hf' : (decide (t < now) && freshFrom now ops) = true := hf
      rw [Bool.and_eq_true, decide_eq_true_eq] at hf'
      exact ih (IdInv_create hf'.1 h) hf'.2
    | switch cid =>
      exact ih (IdInv_switch cid h) hf
    | add role content target now rand =>
      exact ih (IdInv_add role content target now rand h) hf
    | delete cid now =>
      have hf' : (decide (t < now) && freshFrom now ops) = true := hf
      rw [Bool.and_eq_true, decide_eq_true_eq] at hf'
      exact ih (IdInv_delete cid (le_of_lt hf'.1) h) hf'.2

/-- **C9 counterexample.**  Ephemeral conversation identifiers are
`` `conv-${Date.now()}` `` with millisecond granularity and no random
component, so two creations observing the same clock value mint the same
id: with the clock sequence 0,1,2,2,2 the collection ends holding two
conversations both named `conv-2`. -/
theorem run_duplicate_ids_counterexample :
    ¬ (ConvIds (run (initConvState 0)
        [Op.add Role.user "a" none 1 "r1", Op.create 2,
         Op.add Role.user "b" none 2 "r2", Op.create 2])).Nodup := by
  decide

/-- **C9 (amended).**  After every sequence of ephemeral operations
(create, switch, addMessage, delete) in which each operation that mints a
conversation id (create, and delete with its replacement branch) observes
a strictly larger `Date.now()` value than every earlier one, the
collection contains no two conversations with the same id. -/
theorem run_nodup_ids (t0 : Nat) (ops : List Op)
    (hfresh : freshFrom t0 ops = true) :
    (ConvIds (run (initConvState t0) ops)).Nodup := by
  have hinit : IdInv t0 (initConvState t0) := IdInv_fresh t0 _
  obtain ⟨u, hu⟩ := run_IdInv ops hinit hfresh
  exact hu.1

/-- Witness for `run_nodup_ids`: a trace with strictly increasing clock
values keeps all ids distinct. -/
theorem run_nodup_ids_witness :
    (freshFrom 0 [Op.create 1, Op.add Role.user "a" none 1 "rA",
        Op.create 2, Op.delete "conv-1" 3] = true) ∧
    (ConvIds (run (initConvState 0) [Op.create 1, Op.add Role.user "a" none 1 "rA",
        Op.create 2, Op.delete "conv-1" 3])).Nodup :=
  ⟨by decide, run_nodup_ids 0 _ (by decide)⟩

end Forge
